import Mathlib

/-!
Verification of `src/models.py` (BaseModel, LinearModel, kNNModel, RBFModel).

The Python source is shallowly embedded below.  Numeric inputs (numpy float
arrays) are modelled as exact rationals `ℚ`; real-valued library functions
(`np.linalg.norm`, `math.exp`) are modelled over `ℝ`.  Fallible Python code is
modelled with `Except PyErr`, where `PyErr` covers the Python exceptions the
source can actually raise at run time (including exceptions caused by slips in
the source itself, such as references to unbound names).
-/

/-- Python run-time exceptions relevant to `models.py`.  `valueError` models
`ValueError` with its message; `ambiguousTruth` models the `ValueError` numpy
raises when an array is used in boolean context (`The truth value of an array
with more than one element is ambiguous`); `nameError` models `NameError` for an
unbound name; `typeError` models `TypeError`; `linAlgError` models
`numpy.linalg.LinAlgError: Singular matrix`. -/
inductive PyErr where
  | valueError (msg : String)
  | ambiguousTruth
  | nameError (missing : String)
  | typeError
  | linAlgError
  deriving DecidableEq, Repr

/-! ## BaseModel.__init__ shape validation (src/models.py lines 47-58)

A numpy `ndarray` is modelled by its shape together with its (flattened)
rational entries; the validation code of lines 50-58 reads only the shape:
`len(X.shape)`, `len(y.shape)`, and `len(·)`, which for an array of rank ≥ 1 is
`shape[0]`. -/

/-- Model of a numpy `ndarray` after the `np.array(·, dtype='float')`
conversions at lines 47-48: a shape and the flattened entries. -/
structure NDArray where
  shape : List ℕ
  data : List ℚ
  deriving DecidableEq, Repr

/-- Embedding of the shape checks at src/models.py lines 50-58:
`if len(X.shape) != 2: raise ValueError(...)`,
`if len(y.shape) != 1: raise ValueError(...)`,
`if len(X) != len(y): raise ValueError(...)`.
For arrays of rank ≥ 1, Python `len` returns `shape[0]`, i.e. `shape.headI`.
All three raises are `ValueError` (the spec's `ShapeError`). -/
def baseValidate (X y : NDArray) : Except PyErr Unit :=
  if X.shape.length ≠ 2 then
    .error (.valueError "invalid shape for X. Should be 2-dimensional.")
  else if y.shape.length ≠ 1 then
    .error (.valueError "invalid shape for y. Should be 1-dimensional.")
  else if X.shape.headI ≠ y.shape.headI then
    .error (.valueError "Unequal dimensions. len(X) != len(y)")
  else
    .ok ()

/-- C1: the shared BaseModel validation step succeeds exactly when X is rank-2,
y is rank-1, and the row count of X equals the length of y; and it fails with a
`ValueError` (the spec's `ShapeError`) exactly when X is not rank-2, or y is not
rank-1, or `rows(X) ≠ len(y)`. -/
theorem baseValidate_ok_iff (X y : NDArray) :
    (baseValidate X y = .ok () ↔
      X.shape.length = 2 ∧ y.shape.length = 1 ∧ X.shape.headI = y.shape.headI) ∧
    ((∃ msg, baseValidate X y = .error (.valueError msg)) ↔
      ¬(X.shape.length = 2 ∧ y.shape.length = 1 ∧ X.shape.headI = y.shape.headI)) := by
  constructor
  · unfold baseValidate
    split <;> rename_i h1
    · simp_all
    · split <;> rename_i h2
      · simp_all
      · split <;> rename_i h3
        · simp_all
        · simp_all
  · unfold baseValidate
    split <;> rename_i h1
    · simp_all
    · split <;> rename_i h2
      · simp_all
      · split <;> rename_i h3
        · simp_all
        · simp_all

/-! ## np.linalg.inv and the closed-form solves (src/models.py lines 168-179, 493-502)

`np.linalg.inv` performs an (exact, in this rational model) LU factorization and
raises `numpy.linalg.LinAlgError("Singular matrix")` precisely when the matrix
is singular, i.e. when its determinant is zero.  On success it returns the
inverse, written here explicitly as `det⁻¹ • adjugate` to keep the definition
executable. -/
def npLinalgInv {n : ℕ} (M : Matrix (Fin n) (Fin n) ℚ) :
    Except PyErr (Matrix (Fin n) (Fin n) ℚ) :=
  if M.det = 0 then .error .linAlgError else .ok (M.det⁻¹ • M.adjugate)

/-- Embedding of `LinearModel._calc_w_lin` (src/models.py lines 168-179):
`(np.linalg.inv((self.X.T @ self.X) + self.r * np.eye(n)) @ self.X.T) @ self.y`
where `n = self.X.shape[1]` is the column count of the (bias-augmented) data
matrix, so `self.r * np.eye(n)` is `r • (1 : Matrix (Fin d) (Fin d) ℚ)`. -/
def linearCalcWLin {m d : ℕ} (X : Matrix (Fin m) (Fin d) ℚ) (r : ℚ)
    (y : Fin m → ℚ) : Except PyErr (Fin d → ℚ) :=
  (npLinalgInv (X.transpose * X + r • (1 : Matrix (Fin d) (Fin d) ℚ))).map
    (fun A => (A * X.transpose).mulVec y)

/-- Embedding of `RBFModel._calc_w_lin` (src/models.py lines 493-502):
`(np.linalg.inv(self.X.T @ self.X) @ self.X.T) @ self.y`, where `self.X` is the
kernel-transformed training matrix. -/
def rbfCalcWLin {m d : ℕ} (X : Matrix (Fin m) (Fin d) ℚ)
    (y : Fin m → ℚ) : Except PyErr (Fin d → ℚ) :=
  (npLinalgInv (X.transpose * X)).map (fun A => (A * X.transpose).mulVec y)

/-- Helper: `npLinalgInv` fails exactly on non-invertible matrices. -/
theorem npLinalgInv_error_iff {n : ℕ} (M : Matrix (Fin n) (Fin n) ℚ) :
    (∃ e, npLinalgInv M = .error e) ↔ ¬IsUnit M := by
  rw [Matrix.isUnit_iff_isUnit_det, isUnit_iff_ne_zero]
  unfold npLinalgInv
  split <;> rename_i h
  · simpa using h
  · simp [h]

/-- C7: the closed-form solve of `LinearModel._calc_w_lin` fails (with
`LinAlgError: Singular matrix`, the spec's `SingularMatrixError`) exactly when
`XᵀX + r·I` is not invertible, and the solve of `RBFModel._calc_w_lin` fails
exactly when the Gram matrix `XᵀX` of the kernel-transformed data is not
invertible. -/
theorem calcWLin_singular_iff {m d : ℕ} (X : Matrix (Fin m) (Fin d) ℚ)
    (r : ℚ) (y : Fin m → ℚ) :
    ((∃ e, linearCalcWLin X r y = .error e) ↔
      ¬IsUnit (X.transpose * X + r • (1 : Matrix (Fin d) (Fin d) ℚ))) ∧
    ((∃ e, rbfCalcWLin X y = .error e) ↔ ¬IsUnit (X.transpose * X)) := by
  constructor
  · rw [← npLinalgInv_error_iff]
    unfold linearCalcWLin
    cases h : npLinalgInv (X.transpose * X + r • (1 : Matrix (Fin d) (Fin d) ℚ)) <;>
      simp [h, Except.map]
  · rw [← npLinalgInv_error_iff]
    unfold rbfCalcWLin
    cases h : npLinalgInv (X.transpose * X) <;> simp [h, Except.map]

/-! ## The bias column of LinearModel.__init__ (src/models.py lines 122-123)

The source builds the augmented matrix with
`np.column_stack((np.ones_like(self.X.shape[0]), self.X))`.
`self.X.shape[0]` is the Python integer `n`, and `np.ones_like` of an integer
scalar is the 0-dimensional array `array(1)` — not a column of n ones.
`np.column_stack` promotes each argument of rank < 2 with
`np.array(a, ndmin=2).T` (so the 0-d `array(1)` becomes the 1×1 matrix
`[[1]]`) and then concatenates along axis 1, which requires all arguments to
have the same number of rows and otherwise raises
`ValueError: all the input array dimensions ... must match exactly`. -/

/-- A numpy value fed to `np.column_stack`: either a 0-d scalar or a rank-2
matrix (rows of rationals). -/
inductive NpStackArg where
  | scalar (q : ℚ)
  | mat (rows : List (List ℚ))

/-- `np.column_stack`'s promotion of each argument to rank 2: a 0-d scalar `c`
becomes `np.array(c, ndmin=2).T = [[c]]`; a rank-2 matrix is kept as-is. -/
def npAtLeast2dCol : NpStackArg → List (List ℚ)
  | .scalar q => [[q]]
  | .mat rows => rows

/-- Embedding of `np.column_stack((a, b))`: promote both arguments to rank 2,
then concatenate along axis 1; mismatched row counts raise `ValueError`. -/
def npColumnStack2 (a b : NpStackArg) : Except PyErr (List (List ℚ)) :=
  let A := npAtLeast2dCol a
  let B := npAtLeast2dCol b
  if A.length = B.length then .ok (List.zipWith (· ++ ·) A B)
  else .error (.valueError "all the input array dimensions except for the concatenation axis must match exactly")

/-- Embedding of src/models.py lines 122-123: the augmentation
`np.column_stack((np.ones_like(self.X.shape[0]), self.X))` applied to the
validated data matrix `X`.  `np.ones_like(self.X.shape[0])` is the 0-d scalar
array `array(1)` regardless of the row count of `X`. -/
def linearAugment (X : List (List ℚ)) : Except PyErr (List (List ℚ)) :=
  npColumnStack2 (.scalar 1) (.mat X)

/-- The augmentation the claim (and the docstring's intent) describes:
prepend a constant-1 entry to every row of `X`. -/
def claimedAugment (X : List (List ℚ)) : List (List ℚ) :=
  X.map (fun row => 1 :: row)

/-- C3 failing-input theorem: on the two-row training matrix
`X = [[1,2],[3,4]]` the source's augmentation raises `ValueError` (the 1×1
promoted `array(1)` cannot be column-stacked with a 2-row matrix), whereas the
claim expects the bias-augmented matrix `[[1,1,2],[1,3,4]]`.  Only single-row
matrices survive the source's augmentation. -/
theorem linearAugment_fails_on_two_rows :
    linearAugment [[1, 2], [3, 4]] =
      .error (.valueError "all the input array dimensions except for the concatenation axis must match exactly") ∧
    claimedAugment [[1, 2], [3, 4]] = [[1, 1, 2], [1, 3, 4]] ∧
    linearAugment [[5, 6]] = .ok [[1, 5, 6]] := by
  refine ⟨rfl, by decide, rfl⟩

/-- Decidable equality for `Except`, so concrete evaluations can be settled by
`decide`. -/
instance {ε α : Type _} [DecidableEq ε] [DecidableEq α] : DecidableEq (Except ε α) :=
  fun x y =>
    match x, y with
    | .ok a, .ok b =>
        if h : a = b then .isTrue (by rw [h]) else .isFalse (by simp [h])
    | .error a, .error b =>
        if h : a = b then .isTrue (by rw [h]) else .isFalse (by simp [h])
    | .ok _, .error _ => .isFalse (by simp)
    | .error _, .ok _ => .isFalse (by simp)

/-! ## LinearModel._calc_E_in and the default-argument dispatch (lines 181-200)

Line 196 reads `w = w if w != None else self.w`.  When the caller passes a
numpy array for `w`, the comparison `w != None` is *elementwise* and yields a
boolean array of the same length; using that array as the condition of the
conditional expression calls `bool()` on it, which numpy rejects with
`ValueError: The truth value of an array with more than one element is
ambiguous` whenever the array has more than one element.  The same pattern
occurs at line 275 in `classify_all`.  Passing `w=None` compares `None != None`
(plain `False`), so the `self.w` branch is taken without error. -/

/-- Dot product `np.dot` of two equal-length vectors. -/
def dotQ (a b : List ℚ) : ℚ := (List.zipWith (· * ·) a b).sum

/-- Sign overwrite of lines 197-199 (and 282-284, 558-560):
`pred = X @ w; pred[pred >= 0] = 1; pred[pred < 0] = -1`. -/
def npSignPred (X : List (List ℚ)) (w : List ℚ) : List ℚ :=
  X.map (fun row => if 0 ≤ dotQ row w then (1 : ℚ) else -1)

/-- In-sample error of lines 197-200 for the weight vector actually used:
`np.sum(np.abs(pred - self.y) / 2) + self.r * (w @ w)`. -/
def calcEInVal (X : List (List ℚ)) (y : List ℚ) (r : ℚ) (w : List ℚ) : ℚ :=
  (List.zipWith (fun p yi => |p - yi| / 2) (npSignPred X w) y).sum + r * dotQ w w

/-- `bool()` of the numpy boolean array produced by `w != None` when `w` is an
ndarray of length `n` (all entries `True`): a length-1 array yields its single
element; any other length is rejected by numpy as ambiguous.  (The length-0
case is likewise an error in current numpy; it is unreachable here since the
weight vectors of `models.py` have at least one entry.) -/
def npBoolArrayTruthy : List Bool → Except PyErr Bool
  | [b] => .ok b
  | _ => .error .ambiguousTruth

/-- Embedding of `LinearModel._calc_E_in` (lines 181-200), with the
default-argument dispatch of line 196 made explicit: `warg = none` models the
call `self._calc_E_in()` (plain `None != None` is `False`, so `self.w` is
used); `warg = some w` models a call with an ndarray argument, which goes
through the elementwise `w != None` truthiness test. -/
def calcEIn (X : List (List ℚ)) (y : List ℚ) (r : ℚ) (selfW : List ℚ)
    (warg : Option (List ℚ)) : Except PyErr ℚ :=
  match warg with
  | none => .ok (calcEInVal X y r selfW)
  | some w => do
      let t ← npBoolArrayTruthy (w.map (fun _ => true))
      .ok (calcEInVal X y r (if t then w else selfW))

/-- C2 failing-input theorem: for `LinearModel(X=[[2.0]], y=[1.0], r=1)` the
augmented matrix is `[[1,2]]` and `_calc_w_lin` returns
`w_lin = (XᵀX + I)⁻¹ Xᵀ y = [1/6, 1/3]`; the very next statement of
`_train_model` (line 142) calls `self._calc_E_in(w_)` with this length-2
array, and line 196's `w != None` dispatch raises
`ValueError: The truth value of an array with more than one element is
ambiguous` — before the first pocket iteration can run (regardless of what
`self.w` holds, which at this point is in fact not yet assigned). -/
theorem trainModel_crashes_before_first_iteration :
    linearCalcWLin (Matrix.of ![![(1 : ℚ), 2]]) 1 ![1] = .ok ![1/6, 1/3] ∧
    ∀ selfW : List ℚ,
      calcEIn [[1, 2]] [1] 1 selfW (some [1/6, 1/3]) = .error .ambiguousTruth := by
  constructor
  · have hM : (Matrix.of ![![(1 : ℚ), 2]]).transpose * Matrix.of ![![(1 : ℚ), 2]] +
        (1 : ℚ) • (1 : Matrix (Fin 2) (Fin 2) ℚ) = !![2, 2; 2, 5] := by
      ext i j
      fin_cases i <;> fin_cases j <;>
        simp [Matrix.mul_apply, Fin.sum_univ_one, Matrix.one_apply] <;> norm_num
    unfold linearCalcWLin
    rw [hM]
    have hInv : npLinalgInv !![(2 : ℚ), 2; 2, 5] = .ok ((6 : ℚ)⁻¹ • !![5, -2; -2, 2]) := by
      unfold npLinalgInv
      rw [Matrix.det_fin_two_of, Matrix.adjugate_fin_two_of]
      norm_num
    rw [hInv]
    simp only [Except.map]
    congr 1
    funext i
    fin_cases i <;>
      simp [Matrix.mulVec, Matrix.mul_apply, Matrix.dotProduct, Fin.sum_univ_two,
        Fin.sum_univ_one, Matrix.smul_apply] <;> norm_num
  · exact fun selfW => rfl

/-! ## LinearModel.classify / classify_all (src/models.py lines 202-285)

`_classify` (line 220) is `1 if np.dot(x, w) >= 0 else -1`.  `classify`
(lines 222-251) forwards its `w` argument to `_classify` *unchanged*: unlike
`classify_all` and `_calc_E_in`, it has no `w = w if w != None else self.w`
line, so when `w` is omitted, `np.dot(x, None)` is evaluated, and multiplying
float entries by `None` raises `TypeError`.  `classify_all` (line 275) has the
numpy-truthiness dispatch, which works for an omitted `w` (`None != None` is
plain `False`, selecting `self.w`) but raises the ambiguous-truth `ValueError`
for any explicitly supplied weight array with more than one entry. -/

/-- Embedding of `LinearModel._classify` (line 220) with an actual weight
vector: `1 if np.dot(x, w) >= 0 else -1`. -/
def linearClassifyWith (x w : List ℚ) : ℤ :=
  if 0 ≤ dotQ x w then 1 else -1

/-- Embedding of `LinearModel.classify` (lines 222-251) when no feature
transform is stored (`self.feat_trans` is `None`, so lines 246-251 are
skipped).  The `w` argument is passed straight to `_classify`; `w = none`
reaches `np.dot(x, None)`, which raises `TypeError`. -/
def linearClassify (x : List ℚ) (warg : Option (List ℚ)) : Except PyErr ℤ :=
  match warg with
  | some w => .ok (linearClassifyWith x w)
  | none => .error .typeError

/-- Embedding of `LinearModel.classify_all` (lines 253-285) when no feature
transform is stored: line 275 is the same elementwise `w != None` truthiness
dispatch as in `_calc_E_in`, then `pred = X @ w` with the sign overwrite of
lines 282-284. -/
def linearClassifyAll (X : List (List ℚ)) (selfW : List ℚ)
    (warg : Option (List ℚ)) : Except PyErr (List ℚ) :=
  match warg with
  | none => .ok (npSignPred X selfW)
  | some w => do
      let t ← npBoolArrayTruthy (w.map (fun _ => true))
      .ok (npSignPred X (if t then w else selfW))

/-- C4 failing-input theorem: `classify(x)` with `w` omitted raises
`TypeError` (from `np.dot(x, None)`) instead of using the model's weight
vector as its docstring states, and `classify_all(X, w)` with an explicitly
supplied multi-entry weight vector raises the ambiguous-truth `ValueError`
at line 275.  On the paths that do run, the documented sign rule holds:
with an explicit `w`, `classify` returns -1 for a negative dot product and
+1 for a dot product of exactly 0, and `classify_all` with `w` omitted
applies the same `≥ 0 → +1` rule row-wise using `self.w`. -/
theorem linearClassify_dispatch_crashes :
    (∀ x : List ℚ, linearClassify x none = .error .typeError) ∧
    (∀ (X : List (List ℚ)) (selfW : List ℚ),
      linearClassifyAll X selfW (some [1, 2]) = .error .ambiguousTruth) ∧
    linearClassify [3, -4] (some [1, 1]) = .ok (-1) ∧
    linearClassify [1, 0] (some [0, 5]) = .ok 1 ∧
    linearClassifyAll [[3, -4], [1, 0]] [1, 1] none = .ok [-1, 1] := by
  refine ⟨fun x => rfl, fun X selfW => rfl, ?_, ?_, ?_⟩
  · norm_num [linearClassify, linearClassifyWith, dotQ]
  · norm_num [linearClassify, linearClassifyWith, dotQ]
  · norm_num [linearClassifyAll, npSignPred, dotQ]

/-! ## The broken exception wrap `except e:` (src/models.py lines 60-64,
246-251, 277-280, 371-374, 552-556)

Every feature-transform application site uses the pattern
`try: ... except e: raise ValueError(f'Feature transform failed\n{e}')`.
The name `e` is unbound when the `except` clause is reached (it was never
assigned; `except e:` is not `except Exception as e:`), so when the body
raises, evaluating the clause's exception-class expression itself raises
`NameError: name 'e' is not defined`.  The documented
`ValueError('Feature transform failed...')` wrap is unreachable. -/

/-- Embedding of the `try: body except e: raise ValueError(...)` pattern:
on success the body's value is returned; on any raise from the body, the
handler's class expression `e` is evaluated, which raises `NameError`. -/
def pyExceptUnboundHandler {α : Type} (body : Except PyErr α) : Except PyErr α :=
  match body with
  | .ok v => .ok v
  | .error _ => .error (.nameError "e")

/-- Embedding of BaseModel.__init__ lines 60-64: apply a supplied feature
transform to every row of X (`np.array([feat_trans(x) for x in X])`), inside
the broken handler.  The transform itself is a Python callable that may raise,
modelled as returning `Except PyErr`. -/
def baseApplyFeatTrans (f : List ℚ → Except PyErr (List ℚ))
    (X : List (List ℚ)) : Except PyErr (List (List ℚ)) :=
  pyExceptUnboundHandler (X.mapM f)

/-- A feature transform that raises on every point (any raising transform
triggers the same path; the underlying cause here is `ValueError("boom")`). -/
def raisingTransform : List ℚ → Except PyErr (List ℚ) :=
  fun _ => .error (.valueError "boom")

/-- C6 failing-input theorem: constructing a model with a feature transform
that raises does *not* fail with the documented `ValueError` wrapping the
cause (the spec's `TransformError`): it fails with
`NameError: name 'e' is not defined`, losing the cause entirely.  A
non-raising transform is applied row-wise as documented. -/
theorem featTrans_failure_raises_nameError :
    baseApplyFeatTrans raisingTransform [[1]] = .error (.nameError "e") ∧
    (∀ msg, PyErr.nameError "e" ≠ PyErr.valueError msg) ∧
    baseApplyFeatTrans (fun x => .ok (0 :: x)) [[1], [2]] = .ok [[0, 1], [0, 2]] := by
  refine ⟨rfl, fun msg => by simp, by decide⟩

/-! ## kNNModel (src/models.py lines 288-431)

`kNNModel.classify` (lines 344-382) builds the generator
`(self._euclidean_distance(x, self.X[i]), self.y[i]) for i in range(len(self.X))`
and sorts it with Python's built-in `sorted`.  `sorted` on 2-tuples compares
lexicographically — so the sort key is `(distance, label)`, and ties at equal
distance are broken by the *label*, not by the training-order index — and is
stable, so elements with equal `(distance, label)` keep their original order.
Any stable sort produces exactly Python's output, so a stable insertion sort is
a faithful model of `sorted`.

`kNNModel.__init__` calls `super().__init__(X, y)` with no transform, so
`self.feat_trans` is `None` and the transform branch of `classify`
(lines 370-374) is dead code. -/

/-- kNNModel state after construction (src/models.py lines 304-323). -/
structure KNNModel where
  X : List (List ℚ)
  y : List ℚ
  k : ℕ

/-- Sum of squared coordinate differences of two points. -/
def sqDistQ (a b : List ℚ) : ℚ :=
  ((List.zipWith (· - ·) a b).map (fun d => d * d)).sum

/-- Embedding of `kNNModel._euclidean_distance` (lines 325-342):
`np.linalg.norm(x1 - x2)`, the square root of the sum of squared
coordinate differences. -/
noncomputable def euclideanDistance (a b : List ℚ) : ℝ :=
  Real.sqrt ((sqDistQ a b : ℚ) : ℝ)

/-- Python's `<` on 2-tuples `(distance, label)`: lexicographic comparison. -/
def tupleLtR (p q : ℝ × ℚ) : Prop :=
  p.1 < q.1 ∨ (p.1 = q.1 ∧ p.2 < q.2)

noncomputable instance : DecidableRel tupleLtR := fun p q => by
  unfold tupleLtR; infer_instance

/-- The corresponding non-strict lexicographic order, used to state
sortedness. -/
def tupleLeR (p q : ℝ × ℚ) : Prop :=
  p.1 < q.1 ∨ (p.1 = q.1 ∧ p.2 ≤ q.2)

/-- Python's `<` on the 2-tuples `((distance, index), label)` used by the
claim's tie-break rule: compare the `(distance, index)` key lexicographically
(the label tags along and is never compared). -/
def tupleIdxLtR (p q : (ℝ × ℕ) × ℚ) : Prop :=
  p.1.1 < q.1.1 ∨ (p.1.1 = q.1.1 ∧ p.1.2 < q.1.2)

noncomputable instance : DecidableRel tupleIdxLtR := fun p q => by
  unfold tupleIdxLtR; infer_instance

/-- Stable insertion step: advance past every element strictly less than `a`
and place `a` before the first element not less than it (so `a` lands before
any element comparing equal to it, preserving original order of equals). -/
def insertOrdered {α : Type _} (lt : α → α → Prop) [DecidableRel lt] (a : α) :
    List α → List α
  | [] => [a]
  | b :: l => if lt b a then b :: insertOrdered lt a l else a :: b :: l

/-- Stable insertion sort.  Python's `sorted` is stable, and all stable sorts
of a list under the same (strict weak) comparison produce the same output, so
this models `sorted` exactly. -/
def insertionSort {α : Type _} (lt : α → α → Prop) [DecidableRel lt] :
    List α → List α
  | [] => []
  | a :: l => insertOrdered lt a (insertionSort lt l)

/-- Helper: inserting adds exactly the inserted element. -/
theorem insertOrdered_perm {α : Type _} (lt : α → α → Prop) [DecidableRel lt]
    (a : α) (l : List α) : List.Perm (insertOrdered lt a l) (a :: l) := by
  induction l with
  | nil => exact List.Perm.refl _
  | cons b t ih =>
    unfold insertOrdered
    by_cases h : lt b a
    · rw [if_pos h]
      exact (ih.cons b).trans (List.Perm.swap a b t)
    · rw [if_neg h]

/-- Helper: the sort permutes its input. -/
theorem insertionSort_perm {α : Type _} (lt : α → α → Prop) [DecidableRel lt]
    (l : List α) : List.Perm (insertionSort lt l) l := by
  induction l with
  | nil => exact List.Perm.refl _
  | cons a t ih =>
    unfold insertionSort
    exact (insertOrdered_perm lt a (insertionSort lt t)).trans (ih.cons a)

/-- Helper: membership after insertion. -/
theorem mem_insertOrdered {α : Type _} (lt : α → α → Prop) [DecidableRel lt]
    (a x : α) (l : List α) :
    x ∈ insertOrdered lt a l ↔ x = a ∨ x ∈ l := by
  rw [(insertOrdered_perm lt a l).mem_iff, List.mem_cons]

/-- Helper: insertion preserves sortedness, for a strict order `lt` whose
complement implies the non-strict order `le`, with `le` transitive. -/
theorem pairwise_insertOrdered {α : Type _} (lt le : α → α → Prop)
    [DecidableRel lt]
    (hconn : ∀ a b, ¬lt b a → le a b) (htrans : ∀ a b c, le a b → le b c → le a c)
    (hasymm : ∀ a b, lt a b → ¬lt b a)
    (a : α) (l : List α) (h : l.Pairwise le) :
    (insertOrdered lt a l).Pairwise le := by
  induction l with
  | nil => simp [insertOrdered]
  | cons b t ih =>
    rw [List.pairwise_cons] at h
    unfold insertOrdered
    by_cases hba : lt b a
    · rw [if_pos hba]
      rw [List.pairwise_cons]
      refine ⟨fun x hx => ?_, ih h.2⟩
      rcases (mem_insertOrdered lt a x t).mp hx with rfl | hxt
      · exact hconn b x (hasymm b x hba)
      · exact h.1 x hxt
    · rw [if_neg hba]
      rw [List.pairwise_cons]
      refine ⟨fun x hx => ?_, List.pairwise_cons.mpr h⟩
      rcases hx with _ | hxt
      · exact hconn a b hba
      · exact htrans a b x (hconn a b hba) (h.1 x (by assumption))

/-- Helper: the sort is sorted. -/
theorem pairwise_insertionSort {α : Type _} (lt le : α → α → Prop)
    [DecidableRel lt]
    (hconn : ∀ a b, ¬lt b a → le a b) (htrans : ∀ a b c, le a b → le b c → le a c)
    (hasymm : ∀ a b, lt a b → ¬lt b a)
    (l : List α) : (insertionSort lt l).Pairwise le := by
  induction l with
  | nil => simp [insertionSort]
  | cons a t ih =>
    unfold insertionSort
    exact pairwise_insertOrdered lt le hconn htrans hasymm a _ ih

/-- The `(distance, label)` pairs of `classify` lines 377-378, in training
order: `(self._euclidean_distance(x, self.X[i]), self.y[i]) for i in
range(len(self.X))`. -/
noncomputable def knnPairs (m : KNNModel) (x : List ℚ) : List (ℝ × ℚ) :=
  List.zipWith (fun xi yi => (euclideanDistance x xi, yi)) m.X m.y

/-- `distances = sorted(...)` of line 377: Python's stable sort under
lexicographic tuple comparison. -/
noncomputable def knnSorted (m : KNNModel) (x : List ℚ) : List (ℝ × ℚ) :=
  insertionSort tupleLtR (knnPairs m x)

/-- Embedding of `kNNModel.classify` (lines 344-382) with the neighbor count
already resolved (`k = k if k != None else self.k` is a sound dispatch here
because `k` is a plain Python int, not an array): sort the `(distance, label)`
pairs, take the first `k` (`distances[:k]`), and return +1 iff the label sum of
those neighbors is ≥ 0. -/
noncomputable def knnClassify (m : KNNModel) (x : List ℚ) (k : ℕ) : ℤ :=
  if 0 ≤ (((knnSorted m x).take k).map Prod.snd).sum then 1 else -1

/-- C5 (amended): `classify` sorts the neighbor pairs ascending by the
lexicographic key `(distance, label)` — so ties at equal distance are broken
by label (a -1-labelled neighbor precedes a +1-labelled one at the same
distance), not by training-order index — takes the first `k`, and returns +1
iff their label sum is ≥ 0.  Stated as: the sorted list is a permutation of
the training-order `(distance, label)` pairs, it is sorted under the
non-strict lexicographic order, and the vote is the sign of the label sum of
its first `k` entries. -/
theorem knnClassify_sorts_by_distance_then_label (m : KNNModel) (x : List ℚ)
    (k : ℕ) :
    List.Perm (knnSorted m x) (knnPairs m x) ∧
    (knnSorted m x).Pairwise tupleLeR ∧
    knnClassify m x k =
      (if 0 ≤ (((knnSorted m x).take k).map Prod.snd).sum then 1 else -1) := by
  refine ⟨insertionSort_perm _ _, ?_, rfl⟩
  apply pairwise_insertionSort tupleLtR tupleLeR
  · intro a b h
    unfold tupleLtR at h
    unfold tupleLeR
    push_neg at h
    rcases lt_trichotomy a.1 b.1 with h1 | h1 | h1
    · exact Or.inl h1
    · exact Or.inr ⟨h1, h.2 h1.symm⟩
    · exact absurd h1 (not_lt.mpr h.1)
  · intro a b c hab hbc
    rcases hab with h1 | ⟨h1e, h1l⟩ <;> rcases hbc with h2 | ⟨h2e, h2l⟩
    · exact Or.inl (h1.trans h2)
    · exact Or.inl (h1.trans_eq h2e)
    · exact Or.inl (h1e.trans_lt h2)
    · exact Or.inr ⟨h1e.trans h2e, h1l.trans h2l⟩
  · intro a b hab hba
    rcases hab with h1 | ⟨h1e, h1l⟩ <;> rcases hba with h2 | ⟨h2e, h2l⟩
    · exact absurd h2 (lt_asymm h1)
    · exact absurd h2e (ne_of_gt h1)
    · exact absurd h1e (ne_of_lt h2).symm
    · exact absurd h2l (lt_asymm h1l)

/-- Helper: inserting increases the length by one. -/
theorem length_insertOrdered {α : Type _} (lt : α → α → Prop) [DecidableRel lt]
    (a : α) (l : List α) :
    (insertOrdered lt a l).length = l.length + 1 := by
  induction l with
  | nil => rfl
  | cons b t ih =>
    unfold insertOrdered
    by_cases h : lt b a
    · rw [if_pos h]
      simp [ih]
    · rw [if_neg h]
      simp

/-- Helper: sorting preserves the length. -/
theorem length_insertionSort {α : Type _} (lt : α → α → Prop) [DecidableRel lt]
    (l : List α) : (insertionSort lt l).length = l.length := by
  induction l with
  | nil => rfl
  | cons a t ih =>
    unfold insertionSort
    rw [length_insertOrdered, ih, List.length_cons]

/-- C10: for every `k` at least the number of stored training points, the
slice `distances[:k]` at line 381 silently truncates to the available points,
so `classify(x, k)` raises no error and equals `classify(x, n)` where `n` is
the training-set size. -/
theorem knnClassify_large_k (m : KNNModel) (x : List ℚ) (k : ℕ)
    (h : m.X.length ≤ k) :
    knnClassify m x k = knnClassify m x m.X.length := by
  unfold knnClassify
  have hlen : (knnSorted m x).length ≤ m.X.length := by
    unfold knnSorted knnPairs
    rw [length_insertionSort, List.length_zipWith]
    exact min_le_left _ _
  rw [List.take_of_length_le (hlen.trans h), List.take_of_length_le hlen]

/-- Witness for C10 at a concrete input: a 2-point model queried with k = 5. -/
theorem knnClassify_large_k_witness :
    (KNNModel.mk [[0], [3]] [1, -1] 1).X.length ≤ 5 ∧
    knnClassify (KNNModel.mk [[0], [3]] [1, -1] 1) [0] 5 =
      knnClassify (KNNModel.mk [[0], [3]] [1, -1] 1) [0]
        (KNNModel.mk [[0], [3]] [1, -1] 1).X.length :=
  ⟨by decide, knnClassify_large_k _ _ _ (by decide)⟩

/-- Modelled from the spec (for comparison with the source): the neighbor
ordering C5 asserts — sort by the key `(Euclidean distance, original
training-order index)`, so ties at equal distance go to the earlier training
point; the label tags along and is never compared. -/
noncomputable def knnClassifyClaimed (m : KNNModel) (x : List ℚ) (k : ℕ) : ℤ :=
  let pairs := (List.zipWith (fun xi yi => (xi, yi)) m.X m.y).enum.map
    (fun p => ((euclideanDistance x p.2.1, p.1), p.2.2))
  if 0 ≤ (((insertionSort tupleIdxLtR pairs).take k).map Prod.snd).sum then 1
  else -1

/-- C5 counterexample: on `X = [[1], [-1]]`, `y = [1, -1]`, query `x = [0]`,
`k = 1`, both training points are at Euclidean distance exactly 1.  The claim's
index tie-break selects the first training point (label +1), but the source's
sort key is the whole `(distance, label)` tuple, so the -1-labelled point
sorts first and the source returns -1. -/
theorem knn_tie_break_counterexample :
    knnClassify (KNNModel.mk [[1], [-1]] [1, -1] 1) [0] 1 = -1 ∧
    knnClassifyClaimed (KNNModel.mk [[1], [-1]] [1, -1] 1) [0] 1 = 1 := by
  have h1 : euclideanDistance [0] [1] = 1 := by
    unfold euclideanDistance sqDistQ
    norm_num
  have h2 : euclideanDistance [0] [-1] = 1 := by
    unfold euclideanDistance sqDistQ
    norm_num
  constructor
  · unfold knnClassify knnSorted knnPairs
    simp only [List.zipWith_cons_cons, List.zipWith_nil_left, h1, h2]
    have hs : insertionSort tupleLtR [((1 : ℝ), (1 : ℚ)), (1, -1)] =
        [(1, -1), (1, 1)] := by
      simp only [insertionSort, insertOrdered]
      rw [if_pos (show tupleLtR (1, -1) (1, 1) from Or.inr ⟨rfl, by norm_num⟩)]
    rw [hs]
    norm_num
  · unfold knnClassifyClaimed
    have he : (List.zipWith (fun (xi : List ℚ) (yi : ℚ) => (xi, yi))
        [[1], [-1]] [1, -1]).enum = [(0, ([1], 1)), (1, ([-1], -1))] := by decide
    simp only [he, List.map_cons, List.map_nil, h1, h2]
    have hs : insertionSort tupleIdxLtR
        [(((1 : ℝ), (0 : ℕ)), (1 : ℚ)), ((1, 1), -1)] =
        [(((1 : ℝ), (0 : ℕ)), (1 : ℚ)), ((1, 1), -1)] := by
      have hneg : ¬tupleIdxLtR ((1, 1), -1) ((1, 0), 1) := by
        intro hc
        rcases hc with hc | ⟨_, hc⟩
        · exact absurd hc (lt_irrefl _)
        · exact absurd hc (by norm_num)
      simp only [insertionSort, insertOrdered]
      rw [if_neg hneg]
    rw [hs]
    norm_num

/-! ## RBFModel feature transform (src/models.py lines 456-531)

`RBFModel.__init__` stores `kern if kern != None else self._gaussian_kernel`
(a sound dispatch: `kern` is a plain callable, not an array) and sets
`self.feat_trans = self._feat_trans`.  `_feat_trans` starts from `z = [1]` and
appends `self.kern(np.linalg.norm(x - self.Mu[i]) / self.r)` for
`i in range(len(self.Mu))`, in order. -/

/-- Embedding of `RBFModel._gaussian_kernel` (lines 529-531):
`math.exp((-1/2) * z**2)`; in Python 3, `(-1/2)` is `-0.5`. -/
noncomputable def gaussianKernel (z : ℝ) : ℝ := Real.exp ((-1 / 2) * z ^ 2)

/-- Embedding of the kernel dispatch at line 486:
`self.kern = kern if kern != None else self._gaussian_kernel`. -/
noncomputable def rbfKern (kern : Option (ℝ → ℝ)) : ℝ → ℝ :=
  kern.getD gaussianKernel

/-- Embedding of `RBFModel._feat_trans` (lines 504-527): the loop
`z = [1]; for i in range(len(Mu)): z.append(kern(norm(x - Mu[i]) / r))`. -/
noncomputable def rbfFeatTrans (Mu : List (List ℚ)) (kern : ℝ → ℝ) (r : ℝ)
    (x : List ℚ) : List ℝ :=
  Mu.foldl (fun z mu => z ++ [kern (euclideanDistance x mu / r)]) [1]

/-- Helper: appending one element per input in a left fold is a map. -/
theorem foldl_append_singleton {α β : Type _} (f : α → β) (l : List α)
    (acc : List β) :
    l.foldl (fun z a => z ++ [f a]) acc = acc ++ l.map f := by
  induction l generalizing acc with
  | nil => simp
  | cons a t ih => simp [List.foldl_cons, ih]

/-- C8: for every point `x`, the RBF feature transform returns
`[1, kern(‖x-Mu[0]‖/r), kern(‖x-Mu[1]‖/r), …]` — length `len(Mu) + 1`, first
entry 1, then one kernel-distance feature per center in order — and the
default kernel (used when none is supplied) is the Gaussian
`kern(z) = exp(-z²/2)`. -/
theorem rbfFeatTrans_shape (Mu : List (List ℚ)) (kern : ℝ → ℝ) (r : ℝ)
    (x : List ℚ) :
    rbfFeatTrans Mu kern r x =
      1 :: Mu.map (fun mu => kern (euclideanDistance x mu / r)) ∧
    (rbfFeatTrans Mu kern r x).length = Mu.length + 1 ∧
    (rbfFeatTrans Mu kern r x).headI = 1 ∧
    rbfKern none = gaussianKernel ∧
    (∀ z : ℝ, gaussianKernel z = Real.exp (-z ^ 2 / 2)) := by
  have hmain : rbfFeatTrans Mu kern r x =
      1 :: Mu.map (fun mu => kern (euclideanDistance x mu / r)) := by
    unfold rbfFeatTrans
    rw [foldl_append_singleton]
    rfl
  refine ⟨hmain, ?_, ?_, rfl, ?_⟩
  · rw [hmain]
    simp
  · rw [hmain]
    rfl
  · intro z
    unfold gaussianKernel
    congr 1
    ring

/-! ## The inner random search of the pocket loop (src/models.py lines 152-162)

Each pocket iteration runs
`while True: i = random.randint(0, len(self.X) - 1); if
self._classify(self.X[i], w) != self.y[i]: ...; break`.
The loop exits only when the drawn index is misclassified by the current
weight vector `w`.  With the draws independent and uniform on the index set,
the probability that the search is still running after `t` draws is the
fraction of draw sequences in `(Fin n)^t` avoiding every misclassified index;
the search terminates with probability 1 iff this survival fraction tends to 0
as `t → ∞`.  If the current `w` classifies every training point correctly (a
state the spec itself anticipates, e.g. after reaching `E_in = 0` on separable
data), no draw can ever exit the loop. -/

/-- State of the pocket loop as the inner search sees it: the (augmented)
training matrix, its labels, and the current weight vector. -/
structure PocketSearchState where
  X : List (List ℚ)
  y : List ℚ
  w : List ℚ

/-- Embedding of the exit test at line 155:
`self._classify(self.X[i], w) != self.y[i]` — the drawn index is misclassified
by the current weight vector.  (`self.y[i]` is in range for validated models,
where `len(y) = len(X)`; `getD` supplies a default only beyond that.) -/
def misclassified (s : PocketSearchState) (i : Fin s.X.length) : Prop :=
  ((linearClassifyWith (s.X.get i) s.w : ℤ) : ℚ) ≠ s.y.getD i 0

instance (s : PocketSearchState) (i : Fin s.X.length) :
    Decidable (misclassified s i) := by
  unfold misclassified; infer_instance

/-- Draw sequences of length `t` under which the search is still running:
every one of the `t` uniform draws hit a correctly-classified index. -/
def survivingDraws (s : PocketSearchState) (t : ℕ) :
    Finset (Fin t → Fin s.X.length) :=
  Finset.univ.filter (fun v => ∀ j, ¬misclassified s (v j))

/-- Probability that the inner search is still running after `t` uniform
draws: surviving sequences over all `n^t` sequences. -/
def survivalFrac (s : PocketSearchState) (t : ℕ) : ℚ :=
  (survivingDraws s t).card / (s.X.length : ℚ) ^ t

/-- Helper: the surviving draw sequences are exactly the `t`-fold products of
the correctly-classified index set, so their count is `gᵗ` with `g` the number
of correctly-classified indices. -/
theorem card_survivingDraws (s : PocketSearchState) (t : ℕ) :
    (survivingDraws s t).card =
      (Finset.univ.filter (fun i => ¬misclassified s i)).card ^ t := by
  have hset : survivingDraws s t =
      Fintype.piFinset
        (fun _ : Fin t => Finset.univ.filter (fun i => ¬misclassified s i)) := by
    ext v
    simp [survivingDraws, Fintype.mem_piFinset]
  rw [hset, Fintype.card_piFinset_const]

/-- Helper: when no training point is misclassified, the search survives every
draw with probability 1. -/
theorem survivalFrac_eq_one (s : PocketSearchState)
    (h : ∀ i, ¬misclassified s i) (hn : 0 < s.X.length) (t : ℕ) :
    survivalFrac s t = 1 := by
  unfold survivalFrac
  rw [card_survivingDraws]
  have hfull : Finset.univ.filter (fun i => ¬misclassified s i) = Finset.univ := by
    ext i
    simpa using h i
  rw [hfull, Finset.card_univ, Fintype.card_fin]
  push_cast
  rw [div_self]
  exact pow_ne_zero t (by exact_mod_cast hn.ne')

/-- C9 (amended): whenever at least one training point is misclassified by the
current weight vector, the inner random search terminates with probability 1:
the probability of still running after `t` draws tends to 0.  (When no point
is misclassified the loop never exits — see the counterexample.) -/
theorem innerSearch_almost_sure_termination (s : PocketSearchState)
    (h : ∃ i, misclassified s i) :
    Filter.Tendsto (fun t => ((survivalFrac s t : ℚ) : ℝ))
      Filter.atTop (nhds 0) := by
  obtain ⟨i, hi⟩ := h
  have hn : 0 < s.X.length := i.pos
  have hg : (Finset.univ.filter (fun j => ¬misclassified s j)).card < s.X.length := by
    have hss : Finset.univ.filter (fun j => ¬misclassified s j) ⊂ Finset.univ := by
      refine Finset.ssubset_iff_of_subset (Finset.subset_univ _) |>.mpr ?_
      exact ⟨i, Finset.mem_univ i, by simp [hi]⟩
    have := Finset.card_lt_card hss
    simpa [Finset.card_univ] using this
  have heq : ∀ t, ((survivalFrac s t : ℚ) : ℝ) =
      (((Finset.univ.filter (fun j => ¬misclassified s j)).card : ℝ) /
        (s.X.length : ℝ)) ^ t := by
    intro t
    unfold survivalFrac
    rw [card_survivingDraws]
    push_cast
    rw [div_pow]
  have hlim : Filter.Tendsto
      (fun t : ℕ => (((Finset.univ.filter (fun j => ¬misclassified s j)).card : ℝ) /
        (s.X.length : ℝ)) ^ t) Filter.atTop (nhds 0) := by
    apply tendsto_pow_atTop_nhds_zero_of_lt_one
    · positivity
    · rw [div_lt_one (by exact_mod_cast hn)]
      exact_mod_cast hg
  exact hlim.congr (fun t => (heq t).symm)

/-- A pocket-loop state with a misclassified point: one training point `[1]`
with label -1 and current weight `[1]` (the classifier outputs +1). -/
def searchStateMiscl : PocketSearchState := ⟨[[1]], [-1], [1]⟩

/-- A pocket-loop state in which every training point is correctly classified:
one training point `[1]` with label +1 and current weight `[1]`. -/
def searchStateAllCorrect : PocketSearchState := ⟨[[1]], [1], [1]⟩

/-- Witness for the amended C9 theorem at a concrete state with a
misclassified point. -/
theorem innerSearch_almost_sure_termination_witness :
    (∃ i, misclassified searchStateMiscl i) ∧
    Filter.Tendsto (fun t => ((survivalFrac searchStateMiscl t : ℚ) : ℝ))
      Filter.atTop (nhds 0) := by
  have hmis : misclassified searchStateMiscl ⟨0, Nat.zero_lt_one⟩ := by
    unfold misclassified searchStateMiscl
    norm_num [linearClassifyWith, dotQ]
  exact ⟨⟨_, hmis⟩, innerSearch_almost_sure_termination _ ⟨_, hmis⟩⟩

/-- C9 counterexample: in the all-correct state the survival probability is
identically 1, so the inner search does *not* terminate with probability 1
(its running probability does not tend to 0): the claim fails at this concrete
loop state. -/
theorem innerSearch_not_almost_surely_terminating :
    ¬Filter.Tendsto (fun t => ((survivalFrac searchStateAllCorrect t : ℚ) : ℝ))
      Filter.atTop (nhds 0) := by
  intro hcontra
  have hall : ∀ i, ¬misclassified searchStateAllCorrect i := by
    intro i
    have hlt : i.val < 1 := i.isLt
    have hi : i = ⟨0, Nat.zero_lt_one⟩ := Fin.ext (show i.val = 0 by omega)
    rw [hi]
    unfold misclassified searchStateAllCorrect
    norm_num [linearClassifyWith, dotQ]
  have hone : ∀ t, ((survivalFrac searchStateAllCorrect t : ℚ) : ℝ) = 1 := by
    intro t
    rw [survivalFrac_eq_one searchStateAllCorrect hall Nat.zero_lt_one t]
    norm_num
  have hconst : Filter.Tendsto (fun _ : ℕ => (1 : ℝ)) Filter.atTop (nhds 0) :=
    Filter.Tendsto.congr hone hcontra
  have h10 : (0 : ℝ) = 1 := tendsto_nhds_unique hconst tendsto_const_nhds
  norm_num at h10
